import Mathlib

/-!
Verification of the stream queue subsystem of open-langgraph-server.

The development shallowly embeds the queue core:
* `EventMessage` and the codec contract (§4.1 of the spec);
* `MemoryStreamQueue` (src/unnamed/part_001) as a small-step system over an
  explicit heap of backing arrays, so that JavaScript array aliasing is
  modelled faithfully;
* `RedisStreamQueue` (src/src/storage/redis/queue.ts) over an abstract
  shared backend holding ordered lists, key expiries and a publish trace;
* `StreamQueueManager` (src/src/queue/stream_queue.ts) over the shared
  backend.
-/

/-- JSON-compatible structured value: the host data model of payloads
("JSON-compatible structures plus the discriminant string", spec §4.1). -/
inductive JsonValue where
  | null
  | bool (b : Bool)
  | num (n : Int)
  | str (s : String)
  | arr (xs : List JsonValue)
  | obj (fields : List (String × JsonValue))

/-- The unit of data flowing through the log (src/src/queue/event_message.ts,
re-exported through the queue modules): a discriminant string plus an
arbitrary structured payload. -/
structure EventMessage where
  event : String
  payload : JsonValue

/-- The reserved control discriminants checked by both `onDataReceive`
implementations (part_001 lines 38-42, queue.ts lines 76-80). -/
def isControlEvent (e : String) : Bool :=
  e == "__stream_end__" || e == "__stream_error__" || e == "__stream_cancel__"

/-- Modelled from the spec: `CancelEventMessage` (event_message.ts is not under
src/) — the convenience constructor producing the `__stream_cancel__` control
message (spec §4.1); the payload carries no information used by the queue. -/
def CancelEventMessage : EventMessage :=
  { event := "__stream_cancel__", payload := JsonValue.null }

/-- Modelled from the spec: `BaseStreamQueue.encodeData` delegates to the
codec (`JsonPlusSerializer`, not under src/), which the spec treats as an
opaque reversible pair over JSON-compatible messages whose byte layout is a
non-goal (§1, §4.1). The encoded bytes are therefore modelled as the JSON
document of the message (fields `event` and `payload`). -/
def encodeData (m : EventMessage) : JsonValue :=
  JsonValue.obj [("event", JsonValue.str m.event), ("payload", m.payload)]

/-- Modelled from the spec: `BaseStreamQueue.decodeData`, the codec inverse
(§4.1): reading the JSON document back as a message; malformed bytes fail
(`CorruptMessage`) rather than coercing to a default. -/
def decodeData : JsonValue → Option EventMessage
  | JsonValue.obj [("event", JsonValue.str e), ("payload", p)] =>
      some { event := e, payload := p }
  | _ => none

/-- `JSON.parse(item) as EventMessage` (queue.ts line 151), applied to the
shared backend's stored bytes: parsing the codec's JSON text yields the
stored document, which the unchecked cast reads as a message through its
`event` and `payload` fields; a document of any other shape is not a
message. -/
def jsonParseMessage : JsonValue → Option EventMessage
  | JsonValue.obj [("event", JsonValue.str e), ("payload", p)] =>
      some { event := e, payload := p }
  | _ => none

/-- Decode each element, failing as a whole when any element fails
(`Promise.all` over `decodeData`, part_001 lines 94-98 / queue.ts 144-149). -/
def mapOption (f : α → Option β) : List α → Option (List β)
  | [] => some []
  | x :: xs =>
    match f x with
    | none => none
    | some y => Option.map (fun ys => y :: ys) (mapOption f xs)

/-- Association-list lookup, the model of `Map.get` / keyed access in the
shared store. -/
def assocFind (k : String) : List (String × α) → Option α
  | [] => none
  | (k', v) :: rest => if k = k' then some v else assocFind k rest

/-- Association-list update, the model of `Map.set` / keyed write in the
shared store: overwrites the existing binding or appends a new one. -/
def assocSet (k : String) (v : α) : List (String × α) → List (String × α)
  | [] => [(k, v)]
  | (k', v') :: rest =>
    if k = k' then (k, v) :: rest else (k', v') :: assocSet k v rest

/-- Association-list removal, the model of `DEL key` in the shared store. -/
def assocErase (k : String) : List (String × α) → List (String × α)
  | [] => []
  | (k', v) :: rest => if k = k' then rest else (k', v) :: assocErase k rest

/-- In-place update of the element at an index, the model of mutating a
heap-allocated object or array; out-of-range updates change nothing. -/
def setAt : List α → Nat → α → List α
  | [], _, _ => []
  | _ :: rest, 0, a => a :: rest
  | x :: rest, n + 1, a => x :: setAt rest n a

/-- Read of the element at an index (dereferencing a heap reference). -/
def getAt? : List α → Nat → Option α
  | [], _ => none
  | x :: _, 0 => some x
  | _ :: rest, n + 1 => getAt? rest n

/-! ## Local backend: `MemoryStreamQueue` (src/unnamed/part_001) -/

/-- An entry of the in-process array `data`: `push` stores the codec-encoded
bytes when `compressMessages` is set and the raw message otherwise
(part_001 lines 8-12). -/
inductive StoredEntry where
  | raw (m : EventMessage)
  | encoded (bytes : JsonValue)

/-- The entry `push` appends for a given `compressMessages` flag
(part_001 line 9). -/
def entryOf (compressMessages : Bool) (m : EventMessage) : StoredEntry :=
  if compressMessages then StoredEntry.encoded (encodeData m) else StoredEntry.raw m

/-- A `MemoryStreamQueue` object: configuration fields of `BaseStreamQueue`,
the reference of its backing `data` array in the array heap, and the state of
its `cancelSignal` `AbortController`. -/
structure MemQueue where
  id : String
  compressMessages : Bool
  ttl : Nat
  dataRef : Nat
  cancelled : Bool

/-- The in-process world of memory queues: a heap of backing arrays
(JavaScript arrays are reference values — `copyToQueue` assigns the same
array object to the new queue), a heap of queue objects, and the registry
mapping ids to queue objects. -/
structure MemSys where
  arrays : List (List StoredEntry)
  objs : List MemQueue
  reg : List (String × Nat)

/-- The queue operations of the local backend acting on a `MemSys`. -/
inductive MemOp where
  | push (id : String) (item : EventMessage)
  | cancel (id : String)
  | clear (id : String)
  | copyToQueue (fromId : String) (toId : String) (ttl : Option Nat)

/-- `MemoryStreamQueue.push` (part_001 lines 8-12): append the (possibly
encoded) item to the queue's backing array; an id with no registered queue
has no object to call `push` on, so nothing happens. -/
def pushStep (s : MemSys) (id : String) (item : EventMessage) : MemSys :=
  match assocFind id s.reg with
  | none => s
  | some ref =>
    match getAt? s.objs ref with
    | none => s
    | some q =>
      let arr := ((getAt? s.arrays q.dataRef).getD []) ++ [entryOf q.compressMessages item]
      { s with arrays := setAt s.arrays q.dataRef arr }

/-- `MemoryStreamQueue.cancel` (part_001 lines 105-110): first abort the
cancel signal, then `push` the cancel control message. -/
def cancelStep (s : MemSys) (id : String) : MemSys :=
  match assocFind id s.reg with
  | none => s
  | some ref =>
    match getAt? s.objs ref with
    | none => s
    | some q =>
      pushStep { s with objs := setAt s.objs ref { q with cancelled := true } }
        id CancelEventMessage

/-- `MemoryStreamQueue.clear` (part_001 lines 101-103): `this.data = []`
rebinds the queue's data field to a fresh empty array. -/
def clearStep (s : MemSys) (id : String) : MemSys :=
  match assocFind id s.reg with
  | none => s
  | some ref =>
    match getAt? s.objs ref with
    | none => s
    | some q =>
      { s with arrays := s.arrays ++ [[]],
               objs := setAt s.objs ref { q with dataRef := s.arrays.length } }

/-- `MemoryStreamQueue.copyToQueue` (part_001 lines 111-116) followed by the
manager's registration of the result (stream_queue.ts line 261): the new
queue object takes the given ttl (defaulting to the source's), a fresh
`AbortController`, and — exactly as in the source, `queue.data = data` —
the same backing array reference as the source. -/
def copyStep (s : MemSys) (fromId toId : String) (ttl : Option Nat) : MemSys :=
  match assocFind fromId s.reg with
  | none => s
  | some ref =>
    match getAt? s.objs ref with
    | none => s
    | some q =>
      { s with
          objs := s.objs ++
            [{ id := toId, compressMessages := q.compressMessages,
               ttl := ttl.getD q.ttl, dataRef := q.dataRef, cancelled := false }],
          reg := assocSet toId s.objs.length s.reg }

/-- One queue operation on the in-process world. -/
def memStep (s : MemSys) : MemOp → MemSys
  | MemOp.push id item => pushStep s id item
  | MemOp.cancel id => cancelStep s id
  | MemOp.clear id => clearStep s id
  | MemOp.copyToQueue fromId toId ttl => copyStep s fromId toId ttl

/-- Run a sequence of queue operations. -/
def runOps (s : MemSys) (ops : List MemOp) : MemSys :=
  ops.foldl memStep s

/-- A world holding a single fresh queue under `id` (the state after the
manager's `createQueue`). -/
def initMemSys (id : String) (compressMessages : Bool) (ttl : Nat) : MemSys :=
  { arrays := [[]],
    objs := [{ id := id, compressMessages := compressMessages, ttl := ttl,
               dataRef := 0, cancelled := false }],
    reg := [(id, 0)] }

/-- Decoding of a stored entry on the compressed read path
(part_001 lines 94-98): `decodeData` expects encoded bytes; handing it a raw
message object is a decode failure (`CorruptMessage`), never a silent
coercion. -/
def decodeEntry : StoredEntry → Option EventMessage
  | StoredEntry.encoded bytes => decodeData bytes
  | StoredEntry.raw _ => none

/-- Reading a stored entry on the uncompressed path (part_001 line 98,
`this.data` returned as `EventMessage[]`): a raw entry is the message itself;
an encoded blob left in the array is not a message. -/
def rawEntry : StoredEntry → Option EventMessage
  | StoredEntry.raw m => some m
  | StoredEntry.encoded _ => none

/-- `MemoryStreamQueue.getAll` (part_001 lines 93-99): decode every entry
when `compressMessages` is set, otherwise return the stored entries. -/
def getAllEntries (compressMessages : Bool) (entries : List StoredEntry) :
    Option (List EventMessage) :=
  if compressMessages then mapOption decodeEntry entries
  else mapOption rawEntry entries

/-- `getAll` of the queue registered under `id` in the world `s`. -/
def getAllIn (s : MemSys) (id : String) : Option (List EventMessage) :=
  (assocFind id s.reg).bind fun ref =>
    (getAt? s.objs ref).bind fun q =>
      (getAt? s.arrays q.dataRef).bind fun arr =>
        getAllEntries q.compressMessages arr

/-! ## Live-tail (`onDataReceive`) -/

/-- Observable outcome of one run of the live-tail generator:
the items it yields, whether it has terminated (as opposed to suspending
while it waits for a further item), whether it subscribed to the
notification source, and whether it invoked the queue's own `cancel()`. -/
structure TailOutcome where
  yielded : List EventMessage
  finished : Bool
  subscribed : Bool
  firesCancel : Bool

/-- Common body of `MemoryStreamQueue.onDataReceive` (part_001 lines 24-91)
and `RedisStreamQueue.onDataReceive` (queue.ts lines 62-132), as a function
of the cancellation signal at call time and of the (decoded) items the
subscription delivers afterwards. Both implementations return before
subscribing when `cancelSignal.signal.aborted` already holds; otherwise they
subscribe, buffer every delivered item, yield buffered items in arrival
order, suspend on an empty buffer, schedule termination (after the 300 ms
grace delay) upon a delivered control event, and additionally invoke the
queue's `cancel()` upon a delivered `__stream_cancel__` event. With no
delivered control event and no abort, the loop suspends awaiting the next
item and the generator never finishes. -/
def liveTailOutcome (cancelledAtCall : Bool) (delivered : List EventMessage) :
    TailOutcome :=
  if cancelledAtCall then
    { yielded := [], finished := true, subscribed := false, firesCancel := false }
  else
    { yielded := delivered,
      finished := delivered.any (fun m => isControlEvent m.event),
      subscribed := true,
      firesCancel := delivered.any (fun m => m.event == "__stream_cancel__") }

/-! ## Shared backend: `RedisStreamQueue` (src/src/storage/redis/queue.ts) -/

/-- A `RedisStreamQueue` object: configuration fields plus the state of its
per-process `cancelSignal` `AbortController`. -/
structure RedisQueue where
  id : String
  compressMessages : Bool
  ttl : Nat
  cancelled : Bool

/-- `queue:${id}` (queue.ts line 24). -/
def queueKey (id : String) : String := "queue:" ++ id

/-- `channel:${id}` (queue.ts line 25). -/
def channelKey (id : String) : String := "channel:" ++ id

/-- The externally shared store: ordered lists by key, key expiries, and the
trace of publish calls on notification channels. A list key exists exactly
while it holds entries (`RPUSH` creates it, `DEL` removes it). -/
structure RedisBackend where
  lists : List (String × List JsonValue)
  expiries : List (String × Nat)
  pubs : List (String × JsonValue)

/-- A shared store with no keys and no published notifications. -/
def emptyRedisBackend : RedisBackend :=
  { lists := [], expiries := [], pubs := [] }

namespace RedisStreamQueue

/-- The `RedisStreamQueue` constructor (queue.ts lines 22-38): the
`super(id, true, ttl)` call initialises the base-class fields with
`compressMessages := true`, after which the derived class's own parameter
properties run and overwrite those fields with the constructor arguments —
so the stored flag ends up equal to the argument. A fresh
`AbortController` is installed. -/
def mk (id : String) (compressMessages : Bool) (ttl : Nat) : RedisQueue :=
  let base : RedisQueue :=
    { id := id, compressMessages := true, ttl := ttl, cancelled := false }
  { base with id := id, compressMessages := compressMessages, ttl := ttl }

/-- `RedisStreamQueue.isQueueExist` (queue.ts lines 12-14): `EXISTS` on the
queue key. -/
def isQueueExist (id : String) (b : RedisBackend) : Bool :=
  (assocFind (queueKey id) b.lists).isSome

/-- `RedisStreamQueue.push` (queue.ts lines 43-57): encode the item
(unconditionally), `RPUSH` the bytes onto the queue key, `EXPIRE` the queue
key to the queue's ttl, and `PUBLISH` the same bytes on the channel key. -/
def push (q : RedisQueue) (item : EventMessage) (b : RedisBackend) : RedisBackend :=
  let bytes := encodeData item
  { b with
      lists := assocSet (queueKey q.id)
        (((assocFind (queueKey q.id) b.lists).getD []) ++ [bytes]) b.lists,
      expiries := assocSet (queueKey q.id) q.ttl b.expiries,
      pubs := b.pubs ++ [(channelKey q.id, bytes)] }

/-- `RedisStreamQueue.getAll` (queue.ts lines 137-153): `LRANGE` the queue
key; an empty read short-circuits to `[]`; otherwise decode every entry when
`compressMessages` is set, else `JSON.parse` each entry and cast. -/
def getAll (q : RedisQueue) (b : RedisBackend) : Option (List EventMessage) :=
  let data := (assocFind (queueKey q.id) b.lists).getD []
  if data.isEmpty then some []
  else if q.compressMessages then mapOption decodeData data
  else mapOption jsonParseMessage data

/-- `RedisStreamQueue.clear` (queue.ts lines 158-162): `DEL` the queue key. -/
def clear (q : RedisQueue) (b : RedisBackend) : RedisBackend :=
  { b with lists := assocErase (queueKey q.id) b.lists }

/-- `RedisStreamQueue.cancel` (queue.ts lines 167-172): abort the cancel
signal, then `push` the cancel control message. -/
def cancel (q : RedisQueue) (b : RedisBackend) : RedisQueue × RedisBackend :=
  let q' := { q with cancelled := true }
  (q', push q' CancelEventMessage b)

/-- `RedisStreamQueue.copyToQueue` (queue.ts lines 173-178): construct the
destination queue, `COPY` the source list to the destination key (the server
duplicates the value; without `REPLACE`, the copy succeeds only when the
destination key is absent and the source present), and `EXPIRE` the
destination. -/
def copyToQueue (q : RedisQueue) (toId : String) (ttl : Option Nat)
    (b : RedisBackend) : RedisQueue × RedisBackend :=
  let nq := mk toId q.compressMessages (ttl.getD q.ttl)
  let copied :=
    match assocFind (queueKey q.id) b.lists, assocFind (queueKey toId) b.lists with
    | some src, none => { b with lists := assocSet (queueKey toId) src b.lists }
    | _, _ => b
  (nq, { copied with expiries := assocSet (queueKey toId) (ttl.getD q.ttl) copied.expiries })

end RedisStreamQueue

/-! ## Manager: `StreamQueueManager` (src/src/queue/stream_queue.ts), over the
shared backend (the backend whose constructor carries `isQueueExist`). -/

/-- A manager process bound to the shared backend: the process-local
registry, the configured default for `compressMessages`, the shared store,
and the ids whose debounced (500 ms) deregistration is pending. -/
structure RedisSys where
  queues : List (String × RedisQueue)
  defaultCompressMessages : Bool
  backend : RedisBackend
  pendingRemoval : List String

namespace StreamQueueManager

/-- `StreamQueueManager.createQueue` (stream_queue.ts lines 133-136): always
construct and register a fresh queue under `id`, overwriting any existing
registry entry. -/
def createQueue (s : RedisSys) (id : String) (ttl : Nat) : RedisQueue × RedisSys :=
  let q := RedisStreamQueue.mk id s.defaultCompressMessages ttl
  (q, { s with queues := assocSet id q s.queues })

/-- `StreamQueueManager.getQueue` (stream_queue.ts lines 145-155): return the
locally registered queue when present; otherwise consult the constructor's
`isQueueExist` and lazily create-and-register (with the default ttl 300), or
fail. -/
def getQueue (s : RedisSys) (id : String) : Except String (RedisQueue × RedisSys) :=
  match assocFind id s.queues with
  | some q => Except.ok (q, s)
  | none =>
    if RedisStreamQueue.isQueueExist id s.backend then
      Except.ok (createQueue s id 300)
    else
      Except.error ("Queue with id " ++ id ++ " does not exist")

/-- `StreamQueueManager.cancelQueue` (stream_queue.ts lines 162-168): look
the id up in the local registry only; when present, `cancel()` the queue and
schedule its debounced removal; when absent, do nothing at all. -/
def cancelQueue (s : RedisSys) (id : String) : RedisSys :=
  match assocFind id s.queues with
  | none => s
  | some q =>
    let qb := RedisStreamQueue.cancel q s.backend
    { s with queues := assocSet id qb.1 s.queues,
             backend := qb.2,
             pendingRemoval := s.pendingRemoval ++ [id] }

/-- `StreamQueueManager.clearQueue` (stream_queue.ts lines 199-204): look the
id up in the local registry only; when present, `clear()` the queue; when
absent, do nothing at all. -/
def clearQueue (s : RedisSys) (id : String) : RedisSys :=
  match assocFind id s.queues with
  | none => s
  | some q => { s with backend := RedisStreamQueue.clear q s.backend }

end StreamQueueManager

/-! ## Concrete scenario states used by the claim analyses -/

/-- A payload event carrying a one-character token. -/
def tok (s : String) : EventMessage := { event := "token", payload := JsonValue.str s }

/-- The `__stream_end__` control message. -/
def endMsg : EventMessage := { event := "__stream_end__", payload := JsonValue.null }

/-- The copy scenario of the spec run on the local backend: push a, b, c to
the source, copy, push d to the source and e to the copy. -/
def copyScenario : MemSys :=
  runOps (initMemSys "from" false 300)
    [MemOp.push "from" (tok "a"), MemOp.push "from" (tok "b"),
     MemOp.push "from" (tok "c"),
     MemOp.copyToQueue "from" "to" none,
     MemOp.push "from" (tok "d"), MemOp.push "to" (tok "e")]

/-- A queue whose log holds exactly a plainly pushed cancel control event. -/
def pushedCancelOnly : MemSys :=
  runOps (initMemSys "q" false 300) [MemOp.push "q" CancelEventMessage]

/-- A queue whose log ends in the `__stream_end__` terminal control event
and whose cancellation signal was never raised. -/
def endedState : MemSys :=
  runOps (initMemSys "q" false 300) [MemOp.push "q" endMsg]

/-- A manager process with one registered queue under id `q`. -/
def oneQueueSys : RedisSys :=
  { queues := [("q", RedisStreamQueue.mk "q" true 300)],
    defaultCompressMessages := true,
    backend := emptyRedisBackend,
    pendingRemoval := [] }

/-- A shared store already holding a queue list under id `x` (written by some
other process). -/
def strayBackend : RedisBackend :=
  { lists := [(queueKey "x", [encodeData endMsg])], expiries := [], pubs := [] }

/-- A manager process with an empty local registry over a shared store that
does hold a queue under id `x`. -/
def emptyRegistrySys : RedisSys :=
  { queues := [],
    defaultCompressMessages := true,
    backend := strayBackend,
    pendingRemoval := [] }


/-! ## Helper lemmas -/

theorem getAt?_some_lt : ∀ (l : List α) (n : Nat) (a : α), getAt? l n = some a → n < l.length
  | [], n, a, h => by simp [getAt?] at h
  | _ :: _, 0, _, _ => Nat.succ_pos _
  | _ :: xs, n + 1, a, h => Nat.succ_lt_succ (getAt?_some_lt xs n a h)

theorem getAt?_setAt_self : ∀ (l : List α) (n : Nat) (a : α),
    n < l.length → getAt? (setAt l n a) n = some a
  | [], _, _, h => absurd h (by simp)
  | _ :: _, 0, _, _ => rfl
  | _ :: xs, n + 1, a, h => by
      simpa [setAt, getAt?] using getAt?_setAt_self xs n a (Nat.lt_of_succ_lt_succ h)

theorem getAt?_setAt_ne : ∀ (l : List α) (n m : Nat) (a : α),
    m ≠ n → getAt? (setAt l n a) m = getAt? l m
  | [], _, _, _, _ => by simp [setAt]
  | _ :: _, 0, 0, _, h => absurd rfl h
  | _ :: _, 0, _ + 1, _, _ => by simp [setAt, getAt?]
  | _ :: _, _ + 1, 0, _, _ => by simp [setAt, getAt?]
  | _ :: xs, n + 1, m + 1, a, h => by
      simpa [setAt, getAt?] using getAt?_setAt_ne xs n m a (fun hh => h (by rw [hh]))

theorem getAt?_append_of_lt : ∀ (l l' : List α) (n : Nat),
    n < l.length → getAt? (l ++ l') n = getAt? l n
  | [], _, _, h => absurd h (by simp)
  | _ :: _, _, 0, _ => rfl
  | _ :: xs, l', n + 1, h => by
      simpa [getAt?] using getAt?_append_of_lt xs l' n (Nat.lt_of_succ_lt_succ h)

theorem assocFind_assocSet_self (k : String) (v : α) (l : List (String × α)) :
    assocFind k (assocSet k v l) = some v := by
  induction l with
  | nil => simp [assocSet, assocFind]
  | cons p rest ih =>
      obtain ⟨k', v'⟩ := p
      by_cases h : k = k'
      · simp [assocSet, assocFind, h]
      · simp [assocSet, assocFind, h, ih]

theorem decodeData_encodeData (m : EventMessage) : decodeData (encodeData m) = some m := rfl

theorem jsonParseMessage_encodeData (m : EventMessage) :
    jsonParseMessage (encodeData m) = some m := rfl

theorem mapOption_decodeData_encodeData (msgs : List EventMessage) :
    mapOption decodeData (msgs.map encodeData) = some msgs := by
  induction msgs with
  | nil => rfl
  | cons m ms ih => simp [mapOption, decodeData_encodeData, ih]

theorem mapOption_jsonParseMessage_encodeData (msgs : List EventMessage) :
    mapOption jsonParseMessage (msgs.map encodeData) = some msgs := by
  induction msgs with
  | nil => rfl
  | cons m ms ih => simp [mapOption, jsonParseMessage_encodeData, ih]

theorem getAllEntries_entryOf (flag : Bool) (msgs : List EventMessage) :
    getAllEntries flag (msgs.map (entryOf flag)) = some msgs := by
  cases flag with
  | false =>
      induction msgs with
      | nil => rfl
      | cons m ms ih =>
          simp only [getAllEntries, if_neg] at ih ⊢
          simp [mapOption, entryOf, rawEntry] at ih ⊢
          exact ih
  | true =>
      induction msgs with
      | nil => rfl
      | cons m ms ih =>
          simp only [getAllEntries, if_pos] at ih ⊢
          simp [mapOption, entryOf, decodeEntry, decodeData_encodeData] at ih ⊢
          exact ih

theorem pushStep_objs (s : MemSys) (id : String) (item : EventMessage) :
    (pushStep s id item).objs = s.objs := by
  cases h : assocFind id s.reg with
  | none => simp [pushStep, h]
  | some ref =>
      cases h2 : getAt? s.objs ref with
      | none => simp [pushStep, h, h2]
      | some q => simp [pushStep, h, h2]

theorem pushStep_reg (s : MemSys) (id : String) (item : EventMessage) :
    (pushStep s id item).reg = s.reg := by
  cases h : assocFind id s.reg with
  | none => simp [pushStep, h]
  | some ref =>
      cases h2 : getAt? s.objs ref with
      | none => simp [pushStep, h, h2]
      | some q => simp [pushStep, h, h2]

theorem memStep_cancelled_mono (s : MemSys) (op : MemOp) (ref : Nat) (q : MemQueue)
    (hq : getAt? s.objs ref = some q) (hc : q.cancelled = true) :
    ∃ q', getAt? (memStep s op).objs ref = some q' ∧ q'.cancelled = true := by
  cases op with
  | push id item =>
      refine ⟨q, ?_, hc⟩
      show getAt? (pushStep s id item).objs ref = some q
      rw [pushStep_objs]; exact hq
  | cancel id =>
      show ∃ q', getAt? (cancelStep s id).objs ref = some q' ∧ q'.cancelled = true
      cases h1 : assocFind id s.reg with
      | none => exact ⟨q, by simp [cancelStep, h1, hq], hc⟩
      | some r =>
          cases h2 : getAt? s.objs r with
          | none => exact ⟨q, by simp [cancelStep, h1, h2, hq], hc⟩
          | some q2 =>
              by_cases he : ref = r
              · subst he
                rw [hq] at h2
                injection h2 with h2
                subst h2
                refine ⟨{ q with cancelled := true }, ?_, rfl⟩
                simp only [cancelStep, h1, hq]
                rw [pushStep_objs]
                exact getAt?_setAt_self _ _ _ (getAt?_some_lt _ _ _ hq)
              · refine ⟨q, ?_, hc⟩
                simp only [cancelStep, h1, h2]
                rw [pushStep_objs]
                simpa [getAt?_setAt_ne _ _ _ _ he] using hq
  | clear id =>
      show ∃ q', getAt? (clearStep s id).objs ref = some q' ∧ q'.cancelled = true
      cases h1 : assocFind id s.reg with
      | none => exact ⟨q, by simp [clearStep, h1, hq], hc⟩
      | some r =>
          cases h2 : getAt? s.objs r with
          | none => exact ⟨q, by simp [clearStep, h1, h2, hq], hc⟩
          | some q2 =>
              by_cases he : ref = r
              · subst he
                rw [hq] at h2
                injection h2 with h2
                subst h2
                refine ⟨{ q with dataRef := s.arrays.length }, ?_, hc⟩
                simp only [clearStep, h1, hq]
                exact getAt?_setAt_self _ _ _ (getAt?_some_lt _ _ _ hq)
              · refine ⟨q, ?_, hc⟩
                simp only [clearStep, h1, h2]
                simpa [getAt?_setAt_ne _ _ _ _ he] using hq
  | copyToQueue fromId toId ttl =>
      show ∃ q', getAt? (copyStep s fromId toId ttl).objs ref = some q' ∧ q'.cancelled = true
      cases h1 : assocFind fromId s.reg with
      | none => exact ⟨q, by simp [copyStep, h1, hq], hc⟩
      | some r =>
          cases h2 : getAt? s.objs r with
          | none => exact ⟨q, by simp [copyStep, h1, h2, hq], hc⟩
          | some q2 =>
              refine ⟨q, ?_, hc⟩
              simp only [copyStep, h1, h2]
              rw [getAt?_append_of_lt _ _ _ (getAt?_some_lt _ _ _ hq)]
              exact hq

theorem runOps_cancelled_mono (ops : List MemOp) :
    ∀ (s : MemSys) (ref : Nat) (q : MemQueue),
      getAt? s.objs ref = some q → q.cancelled = true →
      ∃ q', getAt? (runOps s ops).objs ref = some q' ∧ q'.cancelled = true := by
  induction ops with
  | nil => exact fun s ref q hq hc => ⟨q, hq, hc⟩
  | cons op rest ih =>
      intro s ref q hq hc
      obtain ⟨q', h1, h2⟩ := memStep_cancelled_mono s op ref q hq hc
      simpa [runOps, List.foldl_cons] using ih (memStep s op) ref q' h1 h2

theorem pushStep_single (id : String) (flag : Bool) (ttl : Nat)
    (arr : List StoredEntry) (m : EventMessage) :
    pushStep { arrays := [arr],
               objs := [{ id := id, compressMessages := flag, ttl := ttl,
                          dataRef := 0, cancelled := false }],
               reg := [(id, 0)] } id m
      = { arrays := [arr ++ [entryOf flag m]],
          objs := [{ id := id, compressMessages := flag, ttl := ttl,
                     dataRef := 0, cancelled := false }],
          reg := [(id, 0)] } := by
  simp [pushStep, assocFind, getAt?, setAt]

theorem runOps_pushes (id : String) (flag : Bool) (ttl : Nat) :
    ∀ (msgs : List EventMessage) (arr : List StoredEntry),
      runOps { arrays := [arr],
               objs := [{ id := id, compressMessages := flag, ttl := ttl,
                          dataRef := 0, cancelled := false }],
               reg := [(id, 0)] } (msgs.map (fun m => MemOp.push id m))
        = { arrays := [arr ++ msgs.map (entryOf flag)],
            objs := [{ id := id, compressMessages := flag, ttl := ttl,
                       dataRef := 0, cancelled := false }],
            reg := [(id, 0)] } := by
  intro msgs
  induction msgs with
  | nil => intro arr; simp [runOps]
  | cons m ms ih =>
      intro arr
      simp only [List.map_cons]
      have hfold :
          runOps { arrays := [arr],
                   objs := [{ id := id, compressMessages := flag, ttl := ttl,
                              dataRef := 0, cancelled := false }],
                   reg := [(id, 0)] }
              (MemOp.push id m :: ms.map (fun m => MemOp.push id m))
            = runOps
                (memStep { arrays := [arr],
                           objs := [{ id := id, compressMessages := flag, ttl := ttl,
                                      dataRef := 0, cancelled := false }],
                           reg := [(id, 0)] } (MemOp.push id m))
                (ms.map (fun m => MemOp.push id m)) := by
        simp [runOps]
      rw [hfold]
      have hstep :
          memStep { arrays := [arr],
                    objs := [{ id := id, compressMessages := flag, ttl := ttl,
                               dataRef := 0, cancelled := false }],
                    reg := [(id, 0)] } (MemOp.push id m)
            = { arrays := [arr ++ [entryOf flag m]],
                objs := [{ id := id, compressMessages := flag, ttl := ttl,
                           dataRef := 0, cancelled := false }],
                reg := [(id, 0)] } := pushStep_single id flag ttl arr m
      rw [hstep, ih (arr ++ [entryOf flag m])]
      simp [List.append_assoc]

theorem foldPush_lists (q : RedisQueue) (msgs : List EventMessage) :
    ∀ (b : RedisBackend),
      (assocFind (queueKey q.id)
          (msgs.foldl (fun acc m => RedisStreamQueue.push q m acc) b).lists).getD []
        = ((assocFind (queueKey q.id) b.lists).getD []) ++ msgs.map encodeData := by
  induction msgs with
  | nil => intro b; simp
  | cons m ms ih =>
      intro b
      simp only [List.foldl_cons, List.map_cons]
      rw [ih]
      have hpush : (assocFind (queueKey q.id) (RedisStreamQueue.push q m b).lists).getD []
          = ((assocFind (queueKey q.id) b.lists).getD []) ++ [encodeData m] := by
        simp [RedisStreamQueue.push, assocFind_assocSet_self]
      rw [hpush]
      simp [List.append_assoc]

theorem memQueue_cancel_eta (q : MemQueue) (h : q.cancelled = true) :
    ({ q with cancelled := true } : MemQueue) = q := by
  cases q with
  | mk i c t d cc =>
      have h' : cc = true := h
      subst h'
      rfl

theorem redisQueue_cancel_eta (q : RedisQueue) (h : q.cancelled = true) :
    ({ q with cancelled := true } : RedisQueue) = q := by
  cases q with
  | mk i c t cc =>
      have h' : cc = true := h
      subst h'
      rfl

theorem cancelStep_spec (s : MemSys) (id : String) (ref : Nat) (q : MemQueue)
    (arr : List StoredEntry)
    (hreg : assocFind id s.reg = some ref)
    (hq : getAt? s.objs ref = some q)
    (harr : getAt? s.arrays q.dataRef = some arr) :
    getAt? (cancelStep s id).objs ref = some { q with cancelled := true }
    ∧ getAt? (cancelStep s id).arrays q.dataRef
        = some (arr ++ [entryOf q.compressMessages CancelEventMessage])
    ∧ (cancelStep s id).reg = s.reg
    ∧ (∀ r, r ≠ ref → getAt? (cancelStep s id).objs r = getAt? s.objs r)
    ∧ (∀ j, j ≠ q.dataRef → getAt? (cancelStep s id).arrays j = getAt? s.arrays j) := by
  have hlt := getAt?_some_lt _ _ _ hq
  have hlta := getAt?_some_lt _ _ _ harr
  have hq' : getAt? (setAt s.objs ref { q with cancelled := true }) ref
      = some { q with cancelled := true } := getAt?_setAt_self _ _ _ hlt
  have hstep : cancelStep s id
      = pushStep { s with objs := setAt s.objs ref { q with cancelled := true } }
          id CancelEventMessage := by
    simp [cancelStep, hreg, hq]
  refine ⟨?_, ?_, ?_, ?_, ?_⟩
  · rw [hstep, pushStep_objs]
    exact hq'
  · rw [hstep]
    simp only [pushStep, hreg, hq', harr, Option.getD_some]
    exact getAt?_setAt_self _ _ _ hlta
  · rw [hstep, pushStep_reg]
  · intro r hr
    rw [hstep, pushStep_objs]
    exact getAt?_setAt_ne _ _ _ _ hr
  · intro j hj
    rw [hstep]
    simp only [pushStep, hreg, hq', harr, Option.getD_some]
    exact getAt?_setAt_ne _ _ _ _ hj

theorem mapOption_decodeData_encodeData_cons (m : EventMessage) (ms : List EventMessage) :
    mapOption decodeData (encodeData m :: ms.map encodeData) = some (m :: ms) := by
  simp [mapOption, decodeData_encodeData, mapOption_decodeData_encodeData]

theorem mapOption_jsonParseMessage_encodeData_cons (m : EventMessage) (ms : List EventMessage) :
    mapOption jsonParseMessage (encodeData m :: ms.map encodeData) = some (m :: ms) := by
  simp [mapOption, jsonParseMessage_encodeData, mapOption_jsonParseMessage_encodeData]

/-! ## Claim analyses -/

/-- C1: the claim fails on the local backend, and the failure is a slip in
`MemoryStreamQueue.copyToQueue` (part_001, `queue.data = data` shares the
source's array object instead of copying it). Evaluating the claim's own
scenario: after pushing a, b, c to the source, copying, then pushing d to
the source and e to the copy, BOTH `getAll` calls return all five events
[a, b, c, d, e] — instead of [a, b, c, d] for the source and [a, b, c, e]
for the copy — because the two queues share one backing array. -/
theorem c1_copy_shares_backing_array :
    getAllIn copyScenario "from"
        = some [tok "a", tok "b", tok "c", tok "d", tok "e"]
    ∧ getAllIn copyScenario "to"
        = some [tok "a", tok "b", tok "c", tok "d", tok "e"] :=
  ⟨rfl, rfl⟩

/-- C2 (amended): once `cancel()` has been invoked on a queue — the operation
that both aborts the signal and appends the `__stream_cancel__` marker — the
queue object's cancellation signal is set and remains set in every state
reachable by further queue operations. Appending the marker by a plain
`push`, by contrast, does not set the signal (see the counterexample):
`push` never inspects the event discriminant. -/
theorem c2_cancel_signal_permanent :
    (∀ (s : MemSys) (ops : List MemOp) (ref : Nat) (q : MemQueue),
        getAt? s.objs ref = some q → q.cancelled = true →
        ∃ q', getAt? (runOps s ops).objs ref = some q' ∧ q'.cancelled = true)
    ∧ (∀ (s : MemSys) (id : String) (ref : Nat) (q : MemQueue),
        assocFind id s.reg = some ref → getAt? s.objs ref = some q →
        getAt? (memStep s (MemOp.cancel id)).objs ref
          = some { q with cancelled := true }) := by
  constructor
  · exact fun s ops ref q hq hc => runOps_cancelled_mono ops s ref q hq hc
  · intro s id ref q hreg hq
    have hlt := getAt?_some_lt _ _ _ hq
    show getAt? (cancelStep s id).objs ref = some { q with cancelled := true }
    have hstep : cancelStep s id
        = pushStep { s with objs := setAt s.objs ref { q with cancelled := true } }
            id CancelEventMessage := by
      simp [cancelStep, hreg, hq]
    rw [hstep, pushStep_objs]
    exact getAt?_setAt_self _ _ _ hlt

/-- C2 witness: a cancelled queue stays cancelled across a later push, and
stepping `cancel` on the fresh queue sets its signal. -/
theorem c2_cancel_signal_permanent_witness :
    (∃ q', getAt? (runOps (memStep (initMemSys "q" false 300) (MemOp.cancel "q"))
            [MemOp.push "q" (tok "x")]).objs 0 = some q' ∧ q'.cancelled = true)
    ∧ getAt? (memStep (initMemSys "q" false 300) (MemOp.cancel "q")).objs 0
        = some { id := "q", compressMessages := false, ttl := 300, dataRef := 0,
                 cancelled := true } :=
  ⟨c2_cancel_signal_permanent.1 (memStep (initMemSys "q" false 300) (MemOp.cancel "q"))
      [MemOp.push "q" (tok "x")] 0
      { id := "q", compressMessages := false, ttl := 300, dataRef := 0, cancelled := true }
      rfl rfl,
   c2_cancel_signal_permanent.2 (initMemSys "q" false 300) "q" 0
      { id := "q", compressMessages := false, ttl := 300, dataRef := 0, cancelled := false }
      rfl rfl⟩

/-- C2 counterexample: a plain `push` of the `__stream_cancel__` control
event appends the marker to the log, yet the queue's cancellation signal is
still unset — refuting the claim that ANY operation appending the marker
sets the signal. -/
theorem c2_plain_push_leaves_signal_unset :
    getAllIn pushedCancelOnly "q" = some [CancelEventMessage]
    ∧ isControlEvent CancelEventMessage.event = true
    ∧ getAt? pushedCancelOnly.objs 0
        = some { id := "q", compressMessages := false, ttl := 300, dataRef := 0,
                 cancelled := false } :=
  ⟨rfl, rfl, rfl⟩

/-- C3 (amended): a late joiner's `onDataReceive()` terminates immediately
with no items exactly when the queue's cancellation signal is set at call
time (which `cancel()` ensures); when the log merely ends in a terminal
control event while the signal is unset, the late consumer yields no payload
events but subscribes and suspends awaiting a next item instead of
terminating — `onDataReceive` never replays the stored log. -/
theorem c3_late_joiner_termination :
    liveTailOutcome true []
      = { yielded := [], finished := true, subscribed := false, firesCancel := false }
    ∧ (∀ (s : MemSys) (id : String) (ref : Nat) (q : MemQueue)
         (msgs : List EventMessage) (m : EventMessage),
        assocFind id s.reg = some ref → getAt? s.objs ref = some q →
        getAllIn s id = some (msgs ++ [m]) → isControlEvent m.event = true →
        q.cancelled = false →
        liveTailOutcome q.cancelled []
          = { yielded := [], finished := false, subscribed := true,
              firesCancel := false }) := by
  constructor
  · rfl
  · intro s id ref q msgs m hreg hq hlog hctl hcan
    rw [hcan]
    rfl

/-- C3 witness: on the queue whose log is exactly `[__stream_end__]` and
whose signal is unset, the late joiner's outcome is unfinished with nothing
yielded. -/
theorem c3_late_joiner_termination_witness :
    liveTailOutcome false []
      = { yielded := [], finished := false, subscribed := true, firesCancel := false } :=
  c3_late_joiner_termination.2 endedState "q" 0
    { id := "q", compressMessages := false, ttl := 300, dataRef := 0, cancelled := false }
    [] endMsg rfl rfl rfl rfl rfl

/-- C3 counterexample: a queue whose log already ends in the terminal
`__stream_end__` event and whose signal is unset; the live-tail outcome for
a consumer joining now (with no further deliveries) is NOT finished — the
generator suspends instead of terminating immediately, refuting the claim
for terminal events other than a signalled cancel. -/
theorem c3_ended_log_does_not_terminate :
    getAllIn endedState "q" = some [endMsg]
    ∧ isControlEvent endMsg.event = true
    ∧ getAt? endedState.objs 0
        = some { id := "q", compressMessages := false, ttl := 300, dataRef := 0,
                 cancelled := false }
    ∧ (liveTailOutcome false []).finished = false
    ∧ (liveTailOutcome false []).subscribed = true :=
  ⟨rfl, rfl, rfl, rfl, rfl⟩

/-- C7: when the cancellation signal is already set at the moment
`onDataReceive()` is consumed, the generator returns before subscribing:
it yields no items, terminates immediately, does not subscribe to the
notification source, and triggers nothing — whatever would have been
delivered afterwards. This is the common guard of both backends
(part_001 lines 29-32, queue.ts lines 67-70). -/
theorem c7_cancelled_at_call_yields_nothing :
    ∀ (delivered : List EventMessage),
      liveTailOutcome true delivered
        = { yielded := [], finished := true, subscribed := false,
            firesCancel := false } := by
  intro delivered
  rfl

/-- C4: pushing any finite sequence of messages to a single queue (no clear,
cancel, or copy in between) and then reading with `getAll()` returns exactly
the pushed messages in push order, on the local backend and on the shared
backend, for either value of `compressMessages`. -/
theorem c4_fifo_roundtrip :
    ∀ (flag : Bool) (msgs : List EventMessage) (id : String) (ttl : Nat),
      getAllIn (runOps (initMemSys id flag ttl) (msgs.map (fun m => MemOp.push id m))) id
          = some msgs
      ∧ RedisStreamQueue.getAll (RedisStreamQueue.mk id flag ttl)
            (msgs.foldl
              (fun acc m => RedisStreamQueue.push (RedisStreamQueue.mk id flag ttl) m acc)
              emptyRedisBackend)
          = some msgs := by
  intro flag msgs id ttl
  constructor
  · have h := runOps_pushes id flag ttl msgs []
    simp only [initMemSys]
    rw [h]
    simp [getAllIn, assocFind, getAt?, getAllEntries_entryOf]
  · cases msgs with
    | nil => rfl
    | cons m ms =>
        have hd := foldPush_lists (RedisStreamQueue.mk id flag ttl) (m :: ms)
          emptyRedisBackend
        cases flag <;>
          simp_all [RedisStreamQueue.getAll, emptyRedisBackend, RedisStreamQueue.mk,
            assocFind, mapOption_decodeData_encodeData_cons,
            mapOption_jsonParseMessage_encodeData_cons]

/-- C5: `cancel()` sets the queue's cancellation signal and appends the
`__stream_cancel__` control event to the log, leaving the registry, the
other queue objects and the other arrays untouched; cancelling an
already-cancelled queue leaves the (already set) signal and the queue object
unchanged and merely appends/republishes the marker once more. Stated for
the local backend (on the operation system) and for the shared backend. -/
theorem c5_cancel_sets_signal_and_appends_marker :
    (∀ (s : MemSys) (id : String) (ref : Nat) (q : MemQueue) (arr : List StoredEntry),
        assocFind id s.reg = some ref → getAt? s.objs ref = some q →
        getAt? s.arrays q.dataRef = some arr →
        getAt? (memStep s (MemOp.cancel id)).objs ref = some { q with cancelled := true }
        ∧ getAt? (memStep s (MemOp.cancel id)).arrays q.dataRef
            = some (arr ++ [entryOf q.compressMessages CancelEventMessage])
        ∧ (memStep s (MemOp.cancel id)).reg = s.reg
        ∧ (∀ r, r ≠ ref → getAt? (memStep s (MemOp.cancel id)).objs r = getAt? s.objs r)
        ∧ (∀ j, j ≠ q.dataRef →
              getAt? (memStep s (MemOp.cancel id)).arrays j = getAt? s.arrays j)
        ∧ (q.cancelled = true →
              getAt? (memStep s (MemOp.cancel id)).objs ref = some q))
    ∧ (∀ (q : RedisQueue) (b : RedisBackend),
        (RedisStreamQueue.cancel q b).1 = { q with cancelled := true }
        ∧ assocFind (queueKey q.id) (RedisStreamQueue.cancel q b).2.lists
            = some (((assocFind (queueKey q.id) b.lists).getD [])
                ++ [encodeData CancelEventMessage])
        ∧ (RedisStreamQueue.cancel q b).2.pubs
            = b.pubs ++ [(channelKey q.id, encodeData CancelEventMessage)]
        ∧ (q.cancelled = true → (RedisStreamQueue.cancel q b).1 = q)) := by
  constructor
  · intro s id ref q arr hreg hq harr
    obtain ⟨h1, h2, h3, h4, h5⟩ := cancelStep_spec s id ref q arr hreg hq harr
    refine ⟨h1, h2, h3, h4, h5, fun hc => ?_⟩
    show getAt? (cancelStep s id).objs ref = some q
    rw [h1, memQueue_cancel_eta q hc]
  · intro q b
    refine ⟨rfl, ?_, rfl, fun hc => redisQueue_cancel_eta q hc⟩
    simp [RedisStreamQueue.cancel, RedisStreamQueue.push, assocFind_assocSet_self]

/-- C5 witness: cancelling the fresh queue `q` sets its signal, and
cancelling a shared-backend queue publishes the cancel marker bytes on its
channel. -/
theorem c5_cancel_witness :
    getAt? (memStep (initMemSys "q" false 300) (MemOp.cancel "q")).objs 0
        = some { id := "q", compressMessages := false, ttl := 300, dataRef := 0,
                 cancelled := true }
    ∧ (RedisStreamQueue.cancel (RedisStreamQueue.mk "r" true 300) emptyRedisBackend).2.pubs
        = [(channelKey "r", encodeData CancelEventMessage)] :=
  ⟨(c5_cancel_sets_signal_and_appends_marker.1 (initMemSys "q" false 300) "q" 0
      { id := "q", compressMessages := false, ttl := 300, dataRef := 0, cancelled := false }
      [] rfl rfl rfl).1,
   (c5_cancel_sets_signal_and_appends_marker.2 (RedisStreamQueue.mk "r" true 300)
      emptyRedisBackend).2.2.1⟩

/-- C6: `getQueue(id)` returns the locally registered queue when present;
otherwise, when the backend existence check reports the id, it creates (with
the default ttl 300 and the manager's default `compressMessages`), registers
and returns a fresh local handle; otherwise it fails with the
queue-not-found error; and a successful result implies the id was registered
or confirmed by the backend. -/
theorem c6_getQueue_trichotomy :
    (∀ (s : RedisSys) (id : String) (q : RedisQueue),
        assocFind id s.queues = some q →
        StreamQueueManager.getQueue s id = Except.ok (q, s))
    ∧ (∀ (s : RedisSys) (id : String),
        assocFind id s.queues = none →
        RedisStreamQueue.isQueueExist id s.backend = true →
        StreamQueueManager.getQueue s id
            = Except.ok (StreamQueueManager.createQueue s id 300)
        ∧ assocFind id (StreamQueueManager.createQueue s id 300).2.queues
            = some (RedisStreamQueue.mk id s.defaultCompressMessages 300))
    ∧ (∀ (s : RedisSys) (id : String),
        assocFind id s.queues = none →
        RedisStreamQueue.isQueueExist id s.backend = false →
        StreamQueueManager.getQueue s id
          = Except.error ("Queue with id " ++ id ++ " does not exist"))
    ∧ (∀ (s : RedisSys) (id : String) (r : RedisQueue × RedisSys),
        StreamQueueManager.getQueue s id = Except.ok r →
        (assocFind id s.queues).isSome = true
        ∨ RedisStreamQueue.isQueueExist id s.backend = true) := by
  refine ⟨?_, ?_, ?_, ?_⟩
  · intro s id q h
    simp [StreamQueueManager.getQueue, h]
  · intro s id h1 h2
    constructor
    · simp [StreamQueueManager.getQueue, h1, h2]
    · simp [StreamQueueManager.createQueue, assocFind_assocSet_self]
  · intro s id h1 h2
    simp [StreamQueueManager.getQueue, h1, h2]
  · intro s id r h
    cases hf : assocFind id s.queues with
    | some q => exact Or.inl (by simp [hf])
    | none =>
        cases hex : RedisStreamQueue.isQueueExist id s.backend with
        | true => exact Or.inr rfl
        | false =>
            exfalso
            simp [StreamQueueManager.getQueue, hf, hex] at h

/-- C6 witness: the three branches and the soundness clause exercised on
concrete manager states. -/
theorem c6_getQueue_witness :
    StreamQueueManager.getQueue oneQueueSys "q"
        = Except.ok (RedisStreamQueue.mk "q" true 300, oneQueueSys)
    ∧ StreamQueueManager.getQueue emptyRegistrySys "x"
        = Except.ok (StreamQueueManager.createQueue emptyRegistrySys "x" 300)
    ∧ StreamQueueManager.getQueue emptyRegistrySys "y"
        = Except.error ("Queue with id " ++ "y" ++ " does not exist")
    ∧ ((assocFind "q" oneQueueSys.queues).isSome = true
        ∨ RedisStreamQueue.isQueueExist "q" oneQueueSys.backend = true) :=
  ⟨c6_getQueue_trichotomy.1 oneQueueSys "q" (RedisStreamQueue.mk "q" true 300) rfl,
   (c6_getQueue_trichotomy.2.1 emptyRegistrySys "x" rfl rfl).1,
   c6_getQueue_trichotomy.2.2.1 emptyRegistrySys "y" rfl rfl,
   c6_getQueue_trichotomy.2.2.2 oneQueueSys "q"
     (RedisStreamQueue.mk "q" true 300, oneQueueSys) rfl⟩

/-- C8: on the shared backend every `push(item)` performs the three effects:
the codec-encoded bytes of `item` are appended at the end of the durable
list under the queue key, the expiry of that key is reset to the queue's
ttl, and the same encoded bytes are published on the queue's notification
channel. -/
theorem c8_push_three_effects :
    ∀ (q : RedisQueue) (item : EventMessage) (b : RedisBackend),
      assocFind (queueKey q.id) (RedisStreamQueue.push q item b).lists
          = some (((assocFind (queueKey q.id) b.lists).getD []) ++ [encodeData item])
      ∧ assocFind (queueKey q.id) (RedisStreamQueue.push q item b).expiries = some q.ttl
      ∧ (RedisStreamQueue.push q item b).pubs
          = b.pubs ++ [(channelKey q.id, encodeData item)] := by
  intro q item b
  refine ⟨?_, ?_, rfl⟩
  · simp [RedisStreamQueue.push, assocFind_assocSet_self]
  · simp [RedisStreamQueue.push, assocFind_assocSet_self]

/-- C9: for an id absent from the manager's local registry, `cancelQueue`
and `clearQueue` return leaving the whole state — registry, shared backend
(lists, expiries, publish trace) and pending removals — unchanged: the
lookup uses the registry only, so no backend existence check, no signal, no
marker and no deletion happen, even when the backend does hold the id. -/
theorem c9_unregistered_id_noop :
    ∀ (s : RedisSys) (id : String),
      assocFind id s.queues = none →
      StreamQueueManager.cancelQueue s id = s
      ∧ StreamQueueManager.clearQueue s id = s := by
  intro s id h
  constructor
  · simp [StreamQueueManager.cancelQueue, h]
  · simp [StreamQueueManager.clearQueue, h]

/-- C9 witness: on a manager with an empty registry over a backend that does
hold id `x`, cancelling and clearing `x` change nothing. -/
theorem c9_unregistered_id_noop_witness :
    RedisStreamQueue.isQueueExist "x" emptyRegistrySys.backend = true
    ∧ StreamQueueManager.cancelQueue emptyRegistrySys "x" = emptyRegistrySys
    ∧ StreamQueueManager.clearQueue emptyRegistrySys "x" = emptyRegistrySys :=
  ⟨rfl, (c9_unregistered_id_noop emptyRegistrySys "x" rfl).1,
        (c9_unregistered_id_noop emptyRegistrySys "x" rfl).2⟩

/-- C10 (amended): the shared backend's `push` applies the codec to the item
unconditionally, even when the queue was constructed with
`compressMessages = false`; the constructor passes `true` for the base-class
flag, but the derived class's own parameter property overwrites the field
with the given argument afterwards, so the stored flag equals the argument
(it is not forced to `true`); only the local backend's `push` stores the raw
payload when `compressMessages` is unset. -/
theorem c10_push_encodes_unconditionally :
    ∀ (id : String) (ttl : Nat) (item : EventMessage) (b : RedisBackend)
      (id2 : String) (ttl2 : Nat) (m : EventMessage),
      (RedisStreamQueue.mk id false ttl).compressMessages = false
      ∧ assocFind (queueKey id)
            (RedisStreamQueue.push (RedisStreamQueue.mk id false ttl) item b).lists
          = some (((assocFind (queueKey id) b.lists).getD []) ++ [encodeData item])
      ∧ getAt? (memStep (initMemSys id2 false ttl2) (MemOp.push id2 m)).arrays 0
          = some [StoredEntry.raw m] := by
  intro id ttl item b id2 ttl2 m
  refine ⟨rfl, ?_, ?_⟩
  · simp [RedisStreamQueue.push, RedisStreamQueue.mk, assocFind_assocSet_self]
  · have h := pushStep_single id2 false ttl2 [] m
    show getAt? (pushStep (initMemSys id2 false ttl2) id2 m).arrays 0 = _
    simp only [initMemSys]
    rw [h]
    simp [getAt?, entryOf]

/-- C10 counterexample: constructing a shared-backend queue with
`compressMessages = false` yields an object whose `compressMessages` field
is `false` — the constructor does NOT force the base-class flag to `true`
(the derived parameter property overwrites the value passed to `super`). -/
theorem c10_flag_not_forced_true :
    (RedisStreamQueue.mk "q" false 300).compressMessages = false := rfl
